import Mathlib

/- Shallow embedding of the triton-client binding synthesizer and its
   list-container family.  The definitions below are translated from
   src/triton-client-macros/src/lib.rs (derive macros ImplPyNew,
   ImplPyZeroCopy, ImplPyVecAccessors) and src/py_vec_types/src/lib.rs
   (the define_list_type family of Python-bound containers). -/

/- ## The eleven supported numeric kinds and the list-container family -/

/-- The eleven fixed-width numeric kinds supported by the generator and by the
list-container family: bool, i8/i16/i32/i64, u8/u16/u32/u64, f32, f64
(see the `define_list_type!` invocations in py_vec_types and
`is_supported_numeric_type` in the macro crate). -/
inductive NumericKind where
  | kBool
  | kI8
  | kI16
  | kI32
  | kI64
  | kU8
  | kU16
  | kU32
  | kU64
  | kF32
  | kF64
deriving DecidableEq

/-- Element carrier of each numeric kind.  Signed kinds are carried by `Int`,
unsigned by `Nat`, bool by `Bool`.  The IEEE float kinds are carried by their
bit patterns (`Nat`): no operation of the container family or of the generated
accessors ever computes on element values — elements are only stored, copied
and moved, so the carrier choice is observationally irrelevant. -/
@[reducible]
def NumericKind.carrier : NumericKind → Type
  | .kBool => Bool
  | .kI8 => Int
  | .kI16 => Int
  | .kI32 => Int
  | .kI64 => Int
  | .kU8 => Nat
  | .kU16 => Nat
  | .kU32 => Nat
  | .kU64 => Nat
  | .kF32 => Nat
  | .kF64 => Nat

/-- One container of the eleven-kind list family (`ListBool`, `ListI8`, ...,
`ListF64` from py_vec_types).  Each wraps a growable vector `inner`. -/
structure ListContainer (k : NumericKind) where
  inner : List k.carrier

/-- Rust constructor `fn new(inner: Vec<T>) -> Self`. -/
def ListContainer.new {k : NumericKind} (inner : List k.carrier) : ListContainer k :=
  ⟨inner⟩

/-- Rust `fn into_vec(self) -> Vec<T>`. -/
def ListContainer.into_vec {k : NumericKind} (c : ListContainer k) : List k.carrier :=
  c.inner

/-- Python constructor `new_py`: extracts the host sequence into the vector.
The element-wise extraction of a sequence of kind-`k` values is the identity
on the carrier list. -/
def ListContainer.new_py {k : NumericKind} (s : List k.carrier) : ListContainer k :=
  ⟨s⟩

/-- `from_array`: construction from an external buffer by copy (`arr.to_vec()`). -/
def ListContainer.from_array {k : NumericKind} (s : List k.carrier) : ListContainer k :=
  ⟨s⟩

/-- `fn append(&mut self, item)`: push one element. -/
def ListContainer.append {k : NumericKind} (c : ListContainer k) (item : k.carrier) :
    ListContainer k :=
  ⟨c.inner ++ [item]⟩

/-- Python `__len__`. -/
def ListContainer.len {k : NumericKind} (c : ListContainer k) : Nat :=
  c.inner.length

/-- Python `__getitem__`: `self.inner.get(index).copied().ok_or_else(IndexError)`.
Takes `&self`; the second component records the (unchanged) receiver. -/
def ListContainer.getitem {k : NumericKind} (c : ListContainer k) (i : Nat) :
    Except String k.carrier × ListContainer k :=
  (if h : i < c.inner.length then Except.ok (c.inner.get ⟨i, h⟩)
   else Except.error "Index out of range", c)

/-- Python `__setitem__`: assigns through `get_mut(index)` when the index is in
range, otherwise returns an IndexError.  The second component is the receiver
after the call. -/
def ListContainer.setitem {k : NumericKind} (c : ListContainer k) (i : Nat)
    (v : k.carrier) : Except String Unit × ListContainer k :=
  if i < c.inner.length then (Except.ok (), ⟨c.inner.set i v⟩)
  else (Except.error "Index out of range", c)

/-- `fn remove(&mut self, index)`: when `index < len`, removes and returns the
element at `index`, shifting the rest; otherwise IndexError. -/
def ListContainer.remove {k : NumericKind} (c : ListContainer k) (i : Nat) :
    Except String k.carrier × ListContainer k :=
  if h : i < c.inner.length then
    (Except.ok (c.inner.get ⟨i, h⟩), ⟨c.inner.eraseIdx i⟩)
  else (Except.error "Index out of range", c)

/-- `Vec::insert` on the underlying vector: shifts elements at positions `≥ i`.
Only ever called by `ListContainer.insert` under the guard `i ≤ length`;
the `([], n+1)` case is unreachable under that guard. -/
def list_insert_at {α : Type} : List α → Nat → α → List α
  | l, 0, v => v :: l
  | [], _ + 1, v => [v]
  | x :: xs, n + 1, v => x :: list_insert_at xs n v

/-- `fn insert(&mut self, index, value)`: succeeds iff `index <= len`
(so `index == len` appends); otherwise IndexError. -/
def ListContainer.insert {k : NumericKind} (c : ListContainer k) (i : Nat)
    (v : k.carrier) : Except String Unit × ListContainer k :=
  if i ≤ c.inner.length then (Except.ok (), ⟨list_insert_at c.inner i v⟩)
  else (Except.error "Index out of range", c)

/-- `fn to_list(&self)`: exports the elements, in order, as a host list. -/
def ListContainer.to_list {k : NumericKind} (c : ListContainer k) : List k.carrier :=
  c.inner

/-- `fn to_array(&self)`: bulk export to an external buffer by copy
(`self.inner.clone()`); the receiver is unchanged. -/
def ListContainer.to_array {k : NumericKind} (c : ListContainer k) :
    List k.carrier × ListContainer k :=
  (c.inner, c)

/-- `fn into_array(&mut self)`: bulk export by move (`mem::take`); the
receiver is left empty. -/
def ListContainer.into_array {k : NumericKind} (c : ListContainer k) :
    List k.carrier × ListContainer k :=
  (c.inner, ⟨[]⟩)

/-- `fn clear(&mut self)`. -/
def ListContainer.clear {k : NumericKind} (_c : ListContainer k) : ListContainer k :=
  ⟨[]⟩

/-- `fn copy(&self)`: deep copy (`self.clone()`). -/
def ListContainer.copy {k : NumericKind} (c : ListContainer k) : ListContainer k :=
  c

/-- Boolean discriminator for `Except` failure values. -/
def exceptIsError {ε α : Type} : Except ε α → Bool
  | .error _ => true
  | .ok _ => false

/- ## Generated zero-copy field operations -/

/-- `std::mem::replace(&mut dest, src)`: returns the pair
(new value of the destination, previous value of the destination).
The single indivisible swap primitive used by every generated take/replace. -/
def mem_replace {α : Type} (dest src : α) : α × α :=
  (src, dest)

/-- Generated `replace_<field>` for a flat `Vec<T>` field
(generate_zero_copy_impl, non-nested branch): an absent source buffer is
treated as the empty vector, the field is swapped with the source in one
`mem::replace`, and the previous contents are returned.  Result:
(returned previous contents, field value after the call). -/
def replace_contents {α : Type} (field : List α) (src : Option (List α)) :
    List α × List α :=
  let s : List α :=
    match src with
    | none => []
    | some v => v
  let r := mem_replace field s
  (r.2, r.1)

/-- Generated `Take_<field>` (generate_vec_accessors_impl):
`mem::replace(&mut self.field, vec![])` wrapped into a fresh container.
Result: (returned container, field value after the call). -/
def accessor_take {k : NumericKind} (field : List k.carrier) :
    ListContainer k × List k.carrier :=
  let r := mem_replace field ([] : List k.carrier)
  (ListContainer.new r.2, r.1)

/-- Generated `Replace_<field>` (generate_vec_accessors_impl): the extracted
new value is moved into the field by `mem::replace` and the previous contents
are returned as a fresh container.  Result: (returned container, field value
after the call). -/
def accessor_replace {k : NumericKind} (field : List k.carrier)
    (new_val : ListContainer k) : ListContainer k × List k.carrier :=
  let r := mem_replace field new_val.into_vec
  (ListContainer.new r.2, r.1)

/-- Generated `Get_<field>`: clones the field into a fresh container; the
field is unchanged. -/
def accessor_get {k : NumericKind} (field : List k.carrier) :
    ListContainer k × List k.carrier :=
  (ListContainer.new field, field)

/-- Generated `Set_<field>`: overwrites the field with the container's data. -/
def accessor_set {k : NumericKind} (_field : List k.carrier)
    (list : ListContainer k) : List k.carrier :=
  list.into_vec

/-- Fuel-indexed core of `slice::chunks_exact`: splits `data` into consecutive
chunks of exactly `cols` elements, dropping any shorter remainder.  The fuel
(`data.length` at the top-level call) only guarantees totality; it is never
exhausted before the data is. -/
def chunks_exact_go {α : Type} : Nat → List α → Nat → List (List α)
  | 0, _, _ => []
  | fuel + 1, data, cols =>
    if cols = 0 then []
    else if data.length < cols then []
    else data.take cols :: chunks_exact_go fuel (data.drop cols) cols

/-- `a.chunks_exact(num_cols).map(|chunk| chunk.to_vec()).collect()`. -/
def chunks_exact {α : Type} (data : List α) (cols : Nat) : List (List α) :=
  chunks_exact_go data.length data cols

/-- `numpy::PyArray2::from_vec2`: converts a vector of rows into a rectangular
two-dimensional array; fails with a dimension error when the rows do not all
have the length of the first row. -/
def from_vec2 {α : Type} (v : List (List α)) : Except String (List (List α)) :=
  let cols := (v.headD []).length
  if v.all (fun row => row.length == cols) then Except.ok v
  else Except.error "invalid length"

/-- Generated `replace_<field>` for the nested `Vec<Vec<u8>>` byte-matrix case
(generate_zero_copy_impl, nested branch).  A supplied source is a rectangular
two-dimensional buffer `(rows, cols, flat data)` of which the code reads only
`shape[1]` (= cols) and the flat slice; it is chunked by its own column count
with no validation, then swapped into the field by one `mem::replace`, and the
previous contents are converted to a 2-D array by `from_vec2` (which is where
a dimension failure can arise).  Result: (conversion result for the previous
contents, field value after the call). -/
def replace_bytes_contents {α : Type} (field : List (List α))
    (src : Option (Nat × Nat × List α)) :
    Except String (List (List α)) × List (List α) :=
  let srcRows : List (List α) :=
    match src with
    | none => []
    | some (_rows, cols, data) => chunks_exact data cols
  let r := mem_replace field srcRows
  (from_vec2 r.2, r.1)

/- ## Macro-time type model and selection logic -/

/-- Model of the `syn::Type` shapes the macro inspects: a path type is a
non-empty sequence of segments, each an identifier with its angle-bracketed
type arguments; every other shape is `other`. -/
inductive RustTy where
  | path (segments : List (String × List RustTy))
  | other

/-- `extract_vec_inner_type`: recognizes `Vec<T>` (a single path segment named
`Vec` with a first type argument) and `...::alloc::vec::Vec<T>` (at least
three segments ending `alloc`, `vec`, `Vec`), returning `T`. -/
def extract_vec_inner_type : RustTy → Option RustTy
  | RustTy.other => none
  | RustTy.path segments =>
    let firstTry : Option RustTy :=
      if segments.length = 1 then
        match segments.getLast? with
        | some seg => if seg.1 = "Vec" then seg.2.head? else none
        | none => none
      else none
    match firstTry with
    | some inner => some inner
    | none =>
      if 3 ≤ segments.length then
        match segments.getLast? with
        | some seg =>
          if seg.1 = "Vec" then
            let prev := segments.take (segments.length - 1)
            let lastTwo := prev.reverse.take 2
            match lastTwo.get? 0, lastTwo.get? 1 with
            | some a, some b =>
              if a.1 = "vec" ∧ b.1 = "alloc" then seg.2.head? else none
            | _, _ => none
          else none
        | none => none
      else none

/-- The eleven type names accepted by `is_supported_numeric_type`. -/
def supported_numeric_names : List String :=
  ["bool", "i8", "i16", "i32", "i64", "u8", "u16", "u32", "u64", "f32", "f64"]

/-- `is_supported_numeric_type`: last path segment named after one of the
eleven numeric kinds. -/
def is_supported_numeric_type : RustTy → Bool
  | RustTy.path segments =>
    match segments.getLast? with
    | some seg => supported_numeric_names.contains seg.1
    | none => false
  | RustTy.other => false

/-- Field-selection logic of `generate_zero_copy_impl` (the filter_map body):
for a field type, returns `some (inner_type, is_nested)` when the field is
selected for zero-copy buffer treatment, `none` otherwise.  A `Vec<Vec<T>>`
with `T` any supported numeric type is selected as nested; a flat `Vec<T>`
with `T` supported is selected as non-nested. -/
def zero_copy_select (ty : RustTy) : Option (RustTy × Bool) :=
  match extract_vec_inner_type ty with
  | none => none
  | some inner_type =>
    match extract_vec_inner_type inner_type with
    | some nested_inner =>
      if is_supported_numeric_type nested_inner then some (inner_type, true)
      else if is_supported_numeric_type inner_type then some (inner_type, false)
      else none
    | none =>
      if is_supported_numeric_type inner_type then some (inner_type, false)
      else none

/-- `get_type_info`: maps an element type to the name of its container type,
defaulting to `ListI32` for the unreachable non-numeric cases. -/
def get_type_info (ty : RustTy) : String :=
  match ty with
  | RustTy.path segments =>
    match segments.getLast? with
    | some seg =>
      match seg.1 with
      | "bool" => "ListBool"
      | "i8" => "ListI8"
      | "i16" => "ListI16"
      | "i32" => "ListI32"
      | "i64" => "ListI64"
      | "u8" => "ListU8"
      | "u16" => "ListU16"
      | "u32" => "ListU32"
      | "u64" => "ListU64"
      | "f32" => "ListF32"
      | "f64" => "ListF64"
      | _ => "ListI32"
    | none => "ListI32"
  | RustTy.other => "ListI32"

/- ## Variant naming -/

/-- Accumulator loop of `to_snake_case`: an uppercase character is preceded by
an underscore unless the result is still empty, and is pushed lowercased;
every other character is pushed verbatim. -/
def to_snake_go (acc : List Char) : List Char → List Char
  | [] => acc
  | c :: rest =>
    if c.isUpper then
      to_snake_go ((if acc.isEmpty then acc else acc ++ ['_']) ++ [c.toLower]) rest
    else
      to_snake_go (acc ++ [c]) rest

/-- `to_snake_case`: PascalCase to snake_case conversion used to derive
variant factory method names. -/
def to_snake_case (s : String) : String :=
  String.mk (to_snake_go [] s.data)

/- ## Enum factory synthesis -/

/-- Model of `syn::Fields` for one enum variant: unit, tuple (unnamed) with
its field types, or named fields. -/
inductive VFields where
  | unit
  | unnamed (tys : List RustTy)
  | named (fields : List (String × RustTy))

/-- One enum variant: identifier plus field shape. -/
structure VariantDef where
  name : String
  fields : VFields

/-- One generated variant factory: either a zero-argument staticmethod
returning the named variant, or a one-argument classmethod taking the payload
and returning the variant wrapping it. -/
inductive Factory where
  | zeroArg (method : String) (variant : String)
  | oneArg (method : String) (variant : String) (paramTy : RustTy)

/-- `!matches!(v.fields, Fields::Unit)`. -/
def variant_has_fields (v : VariantDef) : Bool :=
  match v.fields with
  | VFields.unit => false
  | _ => true

/-- `generate_simple_enum_impl`: one zero-argument factory per variant of a
C-style enum, named by `to_snake_case`. -/
def generate_simple_enum_impl (variants : List VariantDef) : List Factory :=
  variants.map fun v => Factory.zeroArg (to_snake_case v.name) v.name

/-- `generate_oneof_enum_impl`: per variant, a one-argument factory for a
single-field tuple variant, nothing for a named-field variant, a zero-argument
factory for a unit variant, and nothing for any other shape (the match arms in
source order). -/
def generate_oneof_enum_impl (variants : List VariantDef) : List Factory :=
  variants.filterMap fun v =>
    match v.fields with
    | VFields.unnamed [t] => some (Factory.oneArg (to_snake_case v.name) v.name t)
    | VFields.named _ => none
    | VFields.unit => some (Factory.zeroArg (to_snake_case v.name) v.name)
    | VFields.unnamed _ => none

/-- `generate_enum_impl`: routes on `has_fields` — an enum with at least one
non-unit variant takes the oneof path, otherwise the C-style path. -/
def generate_enum_impl (variants : List VariantDef) : List Factory :=
  if variants.any variant_has_fields then generate_oneof_enum_impl variants
  else generate_simple_enum_impl variants

/-- Claim-side characterization of mixed-enum factory synthesis, written from
the specification's words: exactly one zero-argument factory per unit variant,
exactly one one-argument factory (taking the payload) per single-unnamed-
payload variant, and no factory at all for any other variant shape. -/
def claimed_mixed_factories : List VariantDef → List Factory
  | [] => []
  | v :: rest =>
    (match v.fields with
     | VFields.unit => [Factory.zeroArg (to_snake_case v.name) v.name]
     | VFields.unnamed [t] => [Factory.oneArg (to_snake_case v.name) v.name t]
     | _ => []) ++ claimed_mixed_factories rest

/- ## Derive entry points -/

/-- Model of `syn::Fields` of a struct: named fields, or any other shape
(tuple/unit), which the extraction collapses to the empty field list. -/
inductive SFields where
  | named (fields : List (String × RustTy))
  | other

/-- Model of `syn::Data`: the three shapes a derive input can have. -/
inductive DeriveData where
  | dstruct (fields : SFields)
  | denum (variants : List VariantDef)
  | dunion

/-- The binding surface emitted by the `ImplPyNew` derive: a constructor with
the struct's fields as parameters, or the enum's variant factories. -/
inductive Binding where
  | ctor (params : List (String × RustTy))
  | factories (fs : List Factory)

/-- `generate_struct_impl`: a constructor taking every named field as a
parameter (in declaration order); non-named field shapes yield an empty
parameter list. -/
def generate_struct_impl : SFields → Binding
  | SFields.named fs => Binding.ctor fs
  | SFields.other => Binding.ctor []

/-- `triton_pyclass_derive` (the `ImplPyNew` entry point): structs get a
constructor, enums get factories, and union inputs abort generation
(`Union types are not supported`, a fatal error at generation time). -/
def triton_pyclass_derive : DeriveData → Except String Binding
  | DeriveData.dstruct fs => Except.ok (generate_struct_impl fs)
  | DeriveData.denum vs => Except.ok (Binding.factories (generate_enum_impl vs))
  | DeriveData.dunion => Except.error "Union types are not supported"

/-- Descriptor of one generated `replace_<field>` method. -/
structure ReplaceMethod where
  method : String
  elem : RustTy
  isNested : Bool

/-- `generate_zero_copy_impl`: one `replace_<field>` method per selected
field of a named-field struct. -/
def generate_zero_copy_impl : SFields → List ReplaceMethod
  | SFields.named fs =>
    fs.filterMap fun f =>
      (zero_copy_select f.2).map fun sel =>
        { method := "replace_" ++ f.1, elem := sel.1, isNested := sel.2 }
  | SFields.other => []

/-- `impl_py_zero_copy` (the `ImplPyZeroCopy` entry point): structs get the
generated methods; every other input shape — enums and unions alike —
silently yields an empty token stream, never an error. -/
def impl_py_zero_copy : DeriveData → Except String (List ReplaceMethod)
  | DeriveData.dstruct fs => Except.ok (generate_zero_copy_impl fs)
  | _ => Except.ok []

/-- Descriptor of one generated accessor quartet for a flat numeric field. -/
structure AccessorQuartet where
  getName : String
  takeName : String
  replaceName : String
  setName : String
  listType : String

/-- `generate_vec_accessors_impl`: one Get/Take/Replace/Set quartet per flat
`Vec<T>` field with `T` a supported numeric type; nested vector fields are
not selected here. -/
def generate_vec_accessors_impl : SFields → List AccessorQuartet
  | SFields.named fs =>
    fs.filterMap fun f =>
      match extract_vec_inner_type f.2 with
      | some inner =>
        if is_supported_numeric_type inner then
          some { getName := "Get_" ++ f.1, takeName := "Take_" ++ f.1,
                 replaceName := "Replace_" ++ f.1, setName := "Set_" ++ f.1,
                 listType := get_type_info inner }
        else none
      | none => none
  | SFields.other => []

/-- `impl_py_vec_accessors` (the `ImplPyVecAccessors` entry point): structs
get the generated quartets; every other input shape silently yields an empty
token stream, never an error. -/
def impl_py_vec_accessors : DeriveData → Except String (List AccessorQuartet)
  | DeriveData.dstruct fs => Except.ok (generate_vec_accessors_impl fs)
  | _ => Except.ok []

/- ## Sample types used by concrete instances -/

/-- The path type `i32`. -/
def i32_ty : RustTy := RustTy.path [("i32", [])]

/-- The path type `u8`. -/
def u8_ty : RustTy := RustTy.path [("u8", [])]

/-- `Vec<t>` as a single-segment path type. -/
def vec_of (t : RustTy) : RustTy := RustTy.path [("Vec", [t])]

/-- The mixed-enum scenario of the specification: variants `Empty`,
`Count(i32)` and `Pair \x7b x, y \x7d`. -/
def scenario_variants : List VariantDef :=
  [⟨"Empty", VFields.unit⟩,
   ⟨"Count", VFields.unnamed [i32_ty]⟩,
   ⟨"Pair", VFields.named [("x", i32_ty), ("y", i32_ty)]⟩]

/- ## Helper lemmas -/

/-- Inserting at the current length appends. -/
theorem list_insert_at_len {α : Type} (l : List α) (v : α) :
    list_insert_at l l.length v = l ++ [v] := by
  induction l with
  | nil => rfl
  | cons x xs ih => simp [list_insert_at, List.length_cons, ih]

/-- On input without uppercase characters, the snake-case loop appends the
input to the accumulator verbatim. -/
theorem to_snake_go_no_upper :
    ∀ (l acc : List Char), (∀ c ∈ l, c.isUpper = false) →
      to_snake_go acc l = acc ++ l := by
  intro l
  induction l with
  | nil => intro acc _; simp [to_snake_go]
  | cons c cs ih =>
    intro acc h
    have hc : c.isUpper = false := h c (by simp)
    simp only [to_snake_go, hc, Bool.false_eq_true, if_false]
    rw [ih (acc ++ [c]) (fun x hx => h x (by simp [hx]))]
    simp

/-- The chunking loop on data of length exactly `rows * cols` (with
`0 < cols` and enough fuel) produces `rows` chunks, each of length `cols`,
whose concatenation is the data: nothing is dropped or reshaped. -/
theorem chunks_exact_go_spec {α : Type} (cols : Nat) (hc : 0 < cols) :
    ∀ (rows fuel : Nat) (data : List α),
      data.length = rows * cols → data.length ≤ fuel →
      (chunks_exact_go fuel data cols).length = rows
      ∧ (∀ r ∈ chunks_exact_go fuel data cols, r.length = cols)
      ∧ (chunks_exact_go fuel data cols).flatten = data := by
  intro rows
  induction rows with
  | zero =>
    intro fuel data hlen _
    have hdata : data = [] := List.eq_nil_of_length_eq_zero (by simpa using hlen)
    subst hdata
    cases fuel with
    | zero => simp [chunks_exact_go]
    | succ f =>
      have hcne : ¬ cols = 0 := by omega
      simp [chunks_exact_go, hcne, hc]
  | succ n ih =>
    intro fuel data hlen hfuel
    have hcols_le : cols ≤ data.length := by
      rw [hlen, Nat.succ_mul]; omega
    have hfuelpos : 0 < fuel :=
      Nat.lt_of_lt_of_le (Nat.lt_of_lt_of_le hc hcols_le) hfuel
    obtain ⟨f, rfl⟩ : ∃ f, fuel = f + 1 := ⟨fuel - 1, by omega⟩
    have hdroplen : (data.drop cols).length = n * cols := by
      rw [List.length_drop, hlen, Nat.succ_mul]; omega
    have hdropfuel : (data.drop cols).length ≤ f := by
      rw [hdroplen]
      have : (n + 1) * cols ≤ f + 1 := by rw [← hlen]; exact hfuel
      rw [Nat.succ_mul] at this
      omega
    have ihres := ih f (data.drop cols) hdroplen hdropfuel
    have hcne : ¬ cols = 0 := by omega
    have hnotlt : ¬ data.length < cols := by omega
    simp only [chunks_exact_go, hcne, if_false, hnotlt]
    refine ⟨?_, ?_, ?_⟩
    · simp [ihres.1]
    · intro r hr
      rcases List.mem_cons.mp hr with heq | hmem
      · subst heq
        simp [List.length_take, Nat.min_eq_left hcols_le]
      · exact ihres.2.1 r hmem
    · simp only [List.flatten_cons, ihres.2.2, List.take_append_drop]

/-- The oneof factory synthesis coincides, variant by variant, with the
claim-side characterization of mixed-enum factories. -/
theorem oneof_eq_claimed (vs : List VariantDef) :
    generate_oneof_enum_impl vs = claimed_mixed_factories vs := by
  induction vs with
  | nil => rfl
  | cons v rest ih =>
    obtain ⟨name, fields⟩ := v
    cases fields with
    | unit =>
      simp [generate_oneof_enum_impl, claimed_mixed_factories,
        List.filterMap_cons] at ih ⊢
      exact ih
    | unnamed tys =>
      rcases tys with _ | ⟨t, ts⟩
      · simp [generate_oneof_enum_impl, claimed_mixed_factories,
          List.filterMap_cons] at ih ⊢
        exact ih
      · rcases ts with _ | ⟨t2, ts2⟩
        · simp [generate_oneof_enum_impl, claimed_mixed_factories,
            List.filterMap_cons] at ih ⊢
          exact ih
        · simp [generate_oneof_enum_impl, claimed_mixed_factories,
            List.filterMap_cons] at ih ⊢
          exact ih
    | named fs =>
      simp [generate_oneof_enum_impl, claimed_mixed_factories,
        List.filterMap_cons] at ih ⊢
      exact ih

/- ## Claim theorems -/

/-- Claim C1: for every buffer-treated field (of any of the eleven kinds),
the generated replace operation called with buffer s2 on a field holding s1
returns s1 and leaves the field holding s2, in one indivisible swap; with the
buffer argument absent it sets the field to the empty sequence and still
returns s1.  This covers the zero-copy `replace_<field>` (optional source)
and the accessor `Replace_<field>` (extracted container source). -/
theorem c1_replace_swap (k : NumericKind) (s1 s2 : List k.carrier) :
    replace_contents s1 (some s2) = (s1, s2)
    ∧ replace_contents s1 none = (s1, [])
    ∧ accessor_replace s1 (ListContainer.new s2) = (ListContainer.new s1, s2) :=
  ⟨rfl, rfl, rfl⟩

/-- Claim C2: for every buffer-treated field holding s, the generated take
operation returns a container holding exactly s and leaves the field holding
the empty sequence. -/
theorem c2_take_moves (k : NumericKind) (s : List k.carrier) :
    accessor_take s = (ListContainer.new s, []) :=
  rfl

/-- Claim C6: for each of the eleven numeric kinds, constructing a container
from a sequence s and exporting it back to a host sequence yields s, order
preserved. -/
theorem c6_roundtrip (k : NumericKind) (s : List k.carrier) :
    (ListContainer.new_py s).to_list = s :=
  rfl

/-- Claim C5: for every container of the eleven-kind family, insert at the
current length succeeds and appends; insert past the length fails with the
out-of-range error; remove, index-read and index-write at the length each
fail with the out-of-range error, returned as an explicit error value. -/
theorem c5_boundary (k : NumericKind) (c : ListContainer k) (v : k.carrier)
    (i : Nat) :
    c.insert c.inner.length v = (Except.ok (), ⟨c.inner ++ [v]⟩)
    ∧ (c.inner.length < i →
        c.insert i v = (Except.error "Index out of range", c))
    ∧ c.remove c.inner.length = (Except.error "Index out of range", c)
    ∧ c.getitem c.inner.length = (Except.error "Index out of range", c)
    ∧ c.setitem c.inner.length v = (Except.error "Index out of range", c) := by
  refine ⟨?_, ?_, ?_, ?_, ?_⟩
  · unfold ListContainer.insert
    rw [if_pos (Nat.le_refl _), list_insert_at_len]
  · intro hi
    unfold ListContainer.insert
    rw [if_neg (by omega)]
  · unfold ListContainer.remove
    rw [dif_neg (by omega)]
  · unfold ListContainer.getitem
    rw [dif_neg (by omega)]
  · unfold ListContainer.setitem
    rw [if_neg (by omega)]

/-- Witness for C5 at a concrete container of kind i32 holding [1, 2, 3]. -/
theorem c5_boundary_witness :
    (⟨[1, 2, 3]⟩ : ListContainer NumericKind.kI32).insert 3 7
      = (Except.ok (), ⟨[1, 2, 3, 7]⟩)
    ∧ (3 : Nat) < 5
    ∧ (⟨[1, 2, 3]⟩ : ListContainer NumericKind.kI32).insert 5 7
      = (Except.error "Index out of range", ⟨[1, 2, 3]⟩)
    ∧ (⟨[1, 2, 3]⟩ : ListContainer NumericKind.kI32).remove 3
      = (Except.error "Index out of range", ⟨[1, 2, 3]⟩)
    ∧ (⟨[1, 2, 3]⟩ : ListContainer NumericKind.kI32).getitem 3
      = (Except.error "Index out of range", ⟨[1, 2, 3]⟩)
    ∧ (⟨[1, 2, 3]⟩ : ListContainer NumericKind.kI32).setitem 3 7
      = (Except.error "Index out of range", ⟨[1, 2, 3]⟩) := by
  have h := c5_boundary NumericKind.kI32 ⟨[1, 2, 3]⟩ 7 5
  exact ⟨h.1, by omega, h.2.1 (by decide), h.2.2.1, h.2.2.2.1, h.2.2.2.2⟩

/-- Claim C10: whenever an index operation of the container family fails with
the out-of-range error, the container is left exactly as it was; the
index-read never modifies it at all. -/
theorem c10_failure_preserves (k : NumericKind) (c : ListContainer k) (i : Nat)
    (v : k.carrier) :
    (c.getitem i).2 = c
    ∧ (exceptIsError (c.setitem i v).1 = true → (c.setitem i v).2 = c)
    ∧ (exceptIsError (c.remove i).1 = true → (c.remove i).2 = c)
    ∧ (exceptIsError (c.insert i v).1 = true → (c.insert i v).2 = c) := by
  refine ⟨rfl, ?_, ?_, ?_⟩
  · intro herr
    unfold ListContainer.setitem at herr ⊢
    by_cases h : i < c.inner.length
    · rw [if_pos h] at herr
      simp [exceptIsError] at herr
    · rw [if_neg h]
  · intro herr
    unfold ListContainer.remove at herr ⊢
    by_cases h : i < c.inner.length
    · rw [dif_pos h] at herr
      simp [exceptIsError] at herr
    · rw [dif_neg h]
  · intro herr
    unfold ListContainer.insert at herr ⊢
    by_cases h : i ≤ c.inner.length
    · rw [if_pos h] at herr
      simp [exceptIsError] at herr
    · rw [if_neg h]

/-- Witness for C10 at a concrete container of kind u8 holding [1, 2] and the
failing index 2. -/
theorem c10_failure_preserves_witness :
    ((⟨[1, 2]⟩ : ListContainer NumericKind.kU8).getitem 2).2 = ⟨[1, 2]⟩
    ∧ exceptIsError ((⟨[1, 2]⟩ : ListContainer NumericKind.kU8).setitem 2 5).1 = true
    ∧ ((⟨[1, 2]⟩ : ListContainer NumericKind.kU8).setitem 2 5).2 = ⟨[1, 2]⟩
    ∧ exceptIsError ((⟨[1, 2]⟩ : ListContainer NumericKind.kU8).remove 2).1 = true
    ∧ ((⟨[1, 2]⟩ : ListContainer NumericKind.kU8).remove 2).2 = ⟨[1, 2]⟩
    ∧ exceptIsError ((⟨[1, 2]⟩ : ListContainer NumericKind.kU8).insert 3 5).1 = true
    ∧ ((⟨[1, 2]⟩ : ListContainer NumericKind.kU8).insert 3 5).2 = ⟨[1, 2]⟩ := by
  have h := c10_failure_preserves NumericKind.kU8 ⟨[1, 2]⟩ 2 5
  have h3 := c10_failure_preserves NumericKind.kU8 ⟨[1, 2]⟩ 3 5
  exact ⟨h.1, rfl, h.2.1 rfl, rfl, h.2.2.1 rfl, rfl, h3.2.2.2 rfl⟩

/-- Claim C3, evaluation at the failing input: a field of type `Vec<Vec<i32>>`
IS selected for nested buffer treatment by generate_zero_copy_impl, although
the claim (and the comment in the source, which restricts the nested case to
`Vec<Vec<u8>>`) says only the byte element kind qualifies for the nested
sequence-of-sequence case. -/
theorem c3_nested_i32_selected :
    zero_copy_select (vec_of (vec_of i32_ty)) = some (vec_of i32_ty, true)
    ∧ zero_copy_select (vec_of (vec_of u8_ty)) = some (vec_of u8_ty, true)
    ∧ zero_copy_select (vec_of i32_ty) = some (i32_ty, false) :=
  ⟨rfl, rfl, rfl⟩

/-- Claim C4, counterexample: replacing a byte-matrix field currently holding
two rows of width 3 with a supplied 2-by-2 buffer is not rejected — there is
no row-width validation before chunking.  The buffer is chunked by its own
column count and stored, and the previous contents are returned. -/
theorem c4_counterexample :
    replace_bytes_contents [[1, 2, 3], [4, 5, 6]] (some (2, 2, [9, 9, 9, 9]))
      = (Except.ok [[1, 2, 3], [4, 5, 6]], [([9, 9] : List Nat), [9, 9]]) :=
  rfl

/-- Claim C4 as amended: the nested replace validates nothing about the
supplied buffer; every rectangular buffer (rows x cols, with its flat data of
length rows * cols) is accepted, chunked by its own column count into exactly
`rows` rows of length `cols` whose concatenation is the whole buffer (never
truncated or reshaped), and stored; the dimension-mismatch failure is instead
the result of converting the field's PREVIOUS contents to a rectangular array
on return, and it occurs after the field has already been swapped. -/
theorem c4_no_validation_equal_rows {α : Type} (rows cols : Nat)
    (data : List α) (field : List (List α)) (hc : 0 < cols)
    (hlen : data.length = rows * cols) :
    ((replace_bytes_contents field (some (rows, cols, data))).2.length = rows
     ∧ (∀ r ∈ (replace_bytes_contents field (some (rows, cols, data))).2,
          r.length = cols)
     ∧ (replace_bytes_contents field (some (rows, cols, data))).2.flatten = data)
    ∧ (replace_bytes_contents field (some (rows, cols, data))).1
        = from_vec2 field := by
  have hspec := chunks_exact_go_spec cols hc rows data.length data hlen
    (Nat.le_refl _)
  exact ⟨⟨hspec.1, hspec.2.1, hspec.2.2⟩, rfl⟩

/-- Witness for the amended C4: a 2-by-3 buffer replacing a field whose
previous rows are ragged — the buffer is stored as two rows of three, and the
returned conversion of the ragged previous contents is the dimension
failure. -/
theorem c4_no_validation_witness :
    (0 : Nat) < 3
    ∧ ([1, 2, 3, 4, 5, 6] : List Nat).length = 2 * 3
    ∧ ((replace_bytes_contents [[7], [8, 8]]
          (some (2, 3, [1, 2, 3, 4, 5, 6]))).2.length = 2
       ∧ (∀ r ∈ (replace_bytes_contents [[7], [8, 8]]
            (some (2, 3, ([1, 2, 3, 4, 5, 6] : List Nat)))).2, r.length = 3)
       ∧ (replace_bytes_contents [[7], [8, 8]]
            (some (2, 3, ([1, 2, 3, 4, 5, 6] : List Nat)))).2.flatten
           = [1, 2, 3, 4, 5, 6])
    ∧ (replace_bytes_contents [[7], [8, 8]]
         (some (2, 3, ([1, 2, 3, 4, 5, 6] : List Nat)))).1
        = from_vec2 [[7], [8, 8]]
    ∧ from_vec2 [([7] : List Nat), [8, 8]] = Except.error "invalid length" := by
  have h := c4_no_validation_equal_rows (α := Nat) 2 3 [1, 2, 3, 4, 5, 6]
    [[7], [8, 8]] (by decide) (by decide)
  exact ⟨by decide, by decide, h.1, h.2, rfl⟩

/-- Claim C7: for a mixed enum (at least one variant carries data), the
generator emits exactly one zero-argument factory per unit variant, exactly
one one-argument factory (taking the payload) per single-unnamed-payload
variant, and no factory at all for any named-field variant. -/
theorem c7_mixed_enum_factories (vs : List VariantDef)
    (hmixed : vs.any variant_has_fields = true) :
    generate_enum_impl vs = claimed_mixed_factories vs := by
  unfold generate_enum_impl
  rw [if_pos hmixed]
  exact oneof_eq_claimed vs

/-- Witness for C7 on the specification's scenario enum: `Empty` gets a
zero-argument factory, `Count(i32)` a one-argument factory, and the
named-field variant `Pair` gets none. -/
theorem c7_mixed_enum_factories_witness :
    scenario_variants.any variant_has_fields = true
    ∧ generate_enum_impl scenario_variants
        = [Factory.zeroArg "empty" "Empty", Factory.oneArg "count" "Count" i32_ty] := by
  refine ⟨rfl, ?_⟩
  rw [c7_mixed_enum_factories scenario_variants rfl]
  rfl

/-- Claim C8: the variant-name snake-case conversion maps every input without
uppercase characters to itself — no separators are inserted, so the
conversion is idempotent on its already-snake-case inputs. -/
theorem c8_snake_case_idempotent (w : String)
    (h : ∀ c ∈ w.data, c.isUpper = false) :
    to_snake_case w = w := by
  unfold to_snake_case
  rw [to_snake_go_no_upper w.data [] h]
  rfl

/-- Witness for C8 on a concrete already-snake-case string. -/
theorem c8_snake_case_idempotent_witness :
    (∀ c ∈ ("already_snake" : String).data, c.isUpper = false)
    ∧ to_snake_case "already_snake" = "already_snake" :=
  ⟨by decide, c8_snake_case_idempotent "already_snake" (by decide)⟩

/-- Claim C9, counterexample: the zero-copy and accessor generation entry
points do NOT fail on a union input — each silently succeeds and emits an
empty binding surface. -/
theorem c9_counterexample :
    impl_py_zero_copy DeriveData.dunion = Except.ok []
    ∧ impl_py_vec_accessors DeriveData.dunion = Except.ok [] :=
  ⟨rfl, rfl⟩

/-- Claim C9 as amended: only the constructor-synthesis entry point rejects
union types fatally at generation time; the zero-copy and accessor entry
points accept any non-struct input, unions included, and silently emit an
empty binding surface. -/
theorem c9_union_handling :
    triton_pyclass_derive DeriveData.dunion
      = Except.error "Union types are not supported"
    ∧ impl_py_zero_copy DeriveData.dunion = Except.ok []
    ∧ impl_py_vec_accessors DeriveData.dunion = Except.ok [] :=
  ⟨rfl, rfl, rfl⟩
